import Mathlib





/-!
Verification development for the business-intelligence pipeline in `app.py`:
the record normalizer `clean_data` and the metric calculator
`perform_calculation`, embedded shallowly.  Numeric values are modelled by
the rationals (every decimal literal occurring in the pipeline is exactly
representable); the non-finite float spellings ("inf", "nan") and non-ASCII
digits accepted by the host language are outside the model and are treated
as unparseable text.
-/
set_option maxRecDepth 8000



set_option allowUnsafeReducibility true in
attribute [semireducible] Rat.add Rat.sub Rat.mul Rat.inv Rat.ofScientific



/-- Outcome of a computation in the source language: a value, or an uncaught
type fault (the only exception the normalizer can let escape, raised when a
JSON `amount` field is not coercible to a number). -/
inductive PyRes (α : Type) where
  | ok (a : α) : PyRes α
  | typeFault : PyRes α
deriving DecidableEq, Repr

/-- A calendar date as produced by the date parser, `year-month-day`. -/
structure PyDate where
  year : Nat
  month : Nat
  day : Nat
deriving DecidableEq, Repr

/-- Strip leading and trailing whitespace from a character list, as the
string strip method does. -/
def trimChars (l : List Char) : List Char :=
  ((l.dropWhile Char.isWhitespace).reverse.dropWhile Char.isWhitespace).reverse

/-- The string strip method. -/
def pyStrip (s : String) : String := String.mk (trimChars s.toList)

/-- The string lower method (ASCII model). -/
def pyLower (s : String) : String := String.mk (s.toList.map Char.toLower)

/-- Numeric value of an ASCII digit character. -/
def digitVal (c : Char) : Nat := c.toNat - 48

/-- Fold decimal digits into a natural number. -/
def natOfDigits (ds : List Nat) : Nat := ds.foldl (fun a d => 10 * a + d) 0

/-- Continuation of `digitRun` after at least one digit was consumed:
keeps consuming digits, allowing a single underscore strictly between two
digits; stops, without consuming, in front of a malformed underscore. -/
def digitRunTail : List Char → (List Nat × List Char)
  | '_' :: c :: cs =>
    if c.isDigit then
      let p := digitRunTail cs
      (digitVal c :: p.1, p.2)
    else ([], '_' :: c :: cs)
  | c :: cs =>
    if c.isDigit then
      let p := digitRunTail cs
      (digitVal c :: p.1, p.2)
    else ([], c :: cs)
  | [] => ([], [])

/-- Consume a run of decimal digits that may contain single underscores
strictly between digits (the numeric-literal grammar of the host language).
Returns the digit values consumed and the unconsumed remainder. -/
def digitRun : List Char → (List Nat × List Char)
  | [] => ([], [])
  | c :: cs =>
    if c.isDigit then
      let p := digitRunTail cs
      (digitVal c :: p.1, p.2)
    else ([], c :: cs)

/-- Consume a run of plain decimal digits (no underscores), as in the JSON
number grammar. -/
def digits0 : List Char → (List Nat × List Char)
  | [] => ([], [])
  | c :: cs =>
    if c.isDigit then
      let p := digits0 cs
      (digitVal c :: p.1, p.2)
    else ([], c :: cs)

/-- The float constructor of the host language applied to a string: strip
surrounding whitespace, then an optional sign, a decimal mantissa with
optional fractional part, and an optional exponent.  Underscores are allowed
between digits.  Returns `none` where the host would raise a value fault. -/
def pyFloat (s : String) : Option ℚ :=
  let l0 := trimChars s.toList
  let sp : ℚ × List Char :=
    match l0 with
    | '+' :: r => (1, r)
    | '-' :: r => (-1, r)
    | r => (1, r)
  let ipr := digitRun sp.2
  let fpr : List Nat × List Char :=
    match ipr.2 with
    | '.' :: r => digitRun r
    | r => ([], r)
  if ipr.1.isEmpty && fpr.1.isEmpty then none
  else
    let mant : ℚ :=
      (natOfDigits ipr.1 : ℚ) + (natOfDigits fpr.1 : ℚ) / ((10 : ℚ) ^ fpr.1.length)
    match fpr.2 with
    | [] => some (sp.1 * mant)
    | 'e' :: r | 'E' :: r =>
      let es : Bool × List Char :=
        match r with
        | '+' :: r2 => (false, r2)
        | '-' :: r2 => (true, r2)
        | r2 => (false, r2)
      let edr := digitRun es.2
      if edr.1.isEmpty then none
      else
        match edr.2 with
        | [] =>
          let en := natOfDigits edr.1
          some (if es.1 then sp.1 * mant / ((10 : ℚ) ^ en) else sp.1 * mant * ((10 : ℚ) ^ en))
        | _ => none
    | _ => none

/-- Remove every thousands separator and every currency symbol, as the two
successive `replace` calls of the normalizer do. -/
def stripCS (s : String) : String :=
  String.mk (s.toList.filter (fun c => !(c == ',' || c == '$')))

/-- A decoded JSON value, the result shape of the JSON loads function.
Numbers are modelled by rationals (the non-standard NaN and Infinity
literals accepted by the host decoder fall outside the model and count as
decode failures). -/
inductive Json where
  | null : Json
  | bool (b : Bool) : Json
  | num (q : ℚ) : Json
  | str (s : String) : Json
  | arr (xs : List Json) : Json
  | obj (kvs : List (String × Json)) : Json

/-- Dictionary insertion: a repeated key keeps its first position and takes
the latest value, as in the host dictionaries built by the JSON decoder. -/
def objUpd (m : List (String × Json)) (k : String) (v : Json) : List (String × Json) :=
  if m.any (fun p => p.1 == k) then
    m.map (fun p => if p.1 == k then (k, v) else p)
  else m ++ [(k, v)]

/-- Dictionary lookup. -/
def objGet (m : List (String × Json)) (k : String) : Option Json :=
  (m.find? (fun p => p.1 == k)).map Prod.snd

/-- The opening-brace character of a JSON object. -/
def obChar : Char := Char.ofNat 123

/-- The closing-brace character of a JSON object. -/
def cbChar : Char := Char.ofNat 125

/-- Skip JSON whitespace. -/
def jWs : List Char → List Char
  | c :: cs => if c = ' ' ∨ c = '\t' ∨ c = '\n' ∨ c = '\r' then jWs cs else c :: cs
  | [] => []

/-- Value of a hexadecimal digit character. -/
def hexVal (c : Char) : Option Nat :=
  if c.isDigit then some (c.toNat - 48)
  else if 'a' ≤ c ∧ c ≤ 'f' then some (c.toNat - 87)
  else if 'A' ≤ c ∧ c ≤ 'F' then some (c.toNat - 55)
  else none

/-- Parse a JSON number (optional minus sign, integer part without leading
zeros, optional fraction, optional exponent). -/
def jNum (l : List Char) : Option (ℚ × List Char) :=
  let sp : Bool × List Char :=
    match l with
    | '-' :: r => (true, r)
    | r => (false, r)
  let ipO : Option (List Nat × List Char) :=
    match sp.2 with
    | '0' :: r => some ([0], r)
    | c :: r => if c.isDigit then
        let p := digits0 r
        some (digitVal c :: p.1, p.2)
      else none
    | [] => none
  match ipO with
  | none => none
  | some (ip, r1) =>
    let fpO : Option (List Nat × List Char) :=
      match r1 with
      | '.' :: r2 =>
        let p := digits0 r2
        if p.1.isEmpty then none else some (p.1, p.2)
      | r2 => some ([], r2)
    match fpO with
    | none => none
    | some (fp, r3) =>
      let base : ℚ := (natOfDigits ip : ℚ) + (natOfDigits fp : ℚ) / ((10 : ℚ) ^ fp.length)
      let m : ℚ := if sp.1 then -base else base
      match r3 with
      | 'e' :: r4 | 'E' :: r4 =>
        let es : Bool × List Char :=
          match r4 with
          | '+' :: r5 => (false, r5)
          | '-' :: r5 => (true, r5)
          | r5 => (false, r5)
        let ed := digits0 es.2
        if ed.1.isEmpty then none
        else
          let en := natOfDigits ed.1
          some ((if es.1 then m / ((10 : ℚ) ^ en) else m * ((10 : ℚ) ^ en)), ed.2)
      | r4 => some (m, r4)

mutual
/-- Parse one JSON value (fueled recursive descent). -/
def jVal : Nat → List Char → Option (Json × List Char)
  | 0, _ => none
  | fuel + 1, l =>
    match l with
    | 'n' :: 'u' :: 'l' :: 'l' :: r => some (.null, r)
    | 't' :: 'r' :: 'u' :: 'e' :: r => some (.bool true, r)
    | 'f' :: 'a' :: 'l' :: 's' :: 'e' :: r => some (.bool false, r)
    | '\"' :: r => (jStr fuel r).map (fun p => (.str p.1, p.2))
    | '[' :: r =>
      let r1 := jWs r
      match r1 with
      | ']' :: r2 => some (.arr [], r2)
      | _ => (jArrItems fuel r1).map (fun p => (.arr p.1, p.2))
    | c :: r =>
      if c = obChar then
        let r1 := jWs r
        match r1 with
        | c2 :: r2 =>
          if c2 = cbChar then some (.obj [], r2)
          else
            (jObjItems fuel (c2 :: r2)).map
              (fun p => (.obj (p.1.foldl (fun m kv => objUpd m kv.1 kv.2) []), p.2))
        | [] => none
      else if c.isDigit ∨ c = '-' then
        (jNum (c :: r)).map (fun p => (.num p.1, p.2))
      else none
    | [] => none

/-- Parse the items of a non-empty JSON array, after the opening bracket. -/
def jArrItems : Nat → List Char → Option (List Json × List Char)
  | 0, _ => none
  | fuel + 1, l =>
    match jVal fuel l with
    | none => none
    | some (v, r) =>
      match jWs r with
      | ',' :: r2 =>
        (jArrItems fuel (jWs r2)).map (fun p => (v :: p.1, p.2))
      | ']' :: r2 => some ([v], r2)
      | _ => none

/-- Parse the members of a non-empty JSON object, after the opening brace. -/
def jObjItems : Nat → List Char → Option (List (String × Json) × List Char)
  | 0, _ => none
  | fuel + 1, l =>
    match l with
    | '\"' :: r =>
      match jStr fuel r with
      | none => none
      | some (k, r1) =>
        match jWs r1 with
        | ':' :: r2 =>
          match jVal fuel (jWs r2) with
          | none => none
          | some (v, r3) =>
            match jWs r3 with
            | ',' :: r4 =>
              match jWs r4 with
              | c :: r5 =>
                if c = '\"' then
                  (jObjItems fuel (c :: r5)).map (fun p => ((k, v) :: p.1, p.2))
                else none
              | [] => none
            | c :: r4 =>
              if c = cbChar then some ([(k, v)], r4) else none
            | [] => none
        | _ => none
    | _ => none

/-- Parse the remainder of a JSON string literal, after the opening quote. -/
def jStr : Nat → List Char → Option (String × List Char)
  | 0, _ => none
  | fuel + 1, l =>
    match l with
    | '\"' :: r => some ("", r)
    | '\\' :: e :: r =>
      let contO : Option (Char × List Char) :=
        if e = 'u' then
          match r with
          | a :: b :: c :: d :: r2 =>
            match hexVal a, hexVal b, hexVal c, hexVal d with
            | some ha, some hb, some hc, some hd =>
              some (Char.ofNat (((ha * 16 + hb) * 16 + hc) * 16 + hd), r2)
            | _, _, _, _ => none
          | _ => none
        else if e = '\"' then some ('\"', r)
        else if e = '\\' then some ('\\', r)
        else if e = '/' then some ('/', r)
        else if e = 'b' then some (Char.ofNat 8, r)
        else if e = 'f' then some (Char.ofNat 12, r)
        else if e = 'n' then some ('\n', r)
        else if e = 'r' then some (Char.ofNat 13, r)
        else if e = 't' then some ('\t', r)
        else none
      match contO with
      | none => none
      | some (ch, r2) =>
        (jStr fuel r2).map (fun p => (String.mk (ch :: p.1.toList), p.2))
    | c :: r =>
      if c.toNat < 32 then none
      else (jStr fuel r).map (fun p => (String.mk (c :: p.1.toList), p.2))
    | [] => none
end



/-- The JSON loads function: whitespace, one value, trailing whitespace,
nothing else.  `none` models the decode error the normalizer catches. -/
def jsonLoads (s : String) : Option Json :=
  match jVal (4 * s.length + 8) (jWs s.toList) with
  | some (j, r) => if jWs r = [] then some j else none
  | none => none

/-- Serialized payload used by the amount-extraction examples. -/
def amountPayload : String := "\x7b\"amount\": 1200.5\x7d"

/-- Probe: decode a payload and extract a numeric `amount` member, without
the fault accounting (sanity checks only). -/
def amountProbe (s : String) : Option ℚ :=
  match jsonLoads s with
  | some (.obj kvs) =>
    match objGet kvs ("amount") with
    | some (.num q) => some q
    | _ => none
  | _ => none

/-- Month field of the date format: two digits 10-12, or a zero-padded or
bare digit 1-9, mirroring the alternation order of the format regex. -/
def monthPart : List Char → Option (Nat × List Char)
  | '1' :: c :: r =>
    if c = '0' ∨ c = '1' ∨ c = '2' then some (10 + digitVal c, r)
    else some (1, c :: r)
  | '0' :: c :: r =>
    if c.isDigit ∧ c ≠ '0' then some (digitVal c, r) else none
  | c :: r => if c.isDigit ∧ c ≠ '0' then some (digitVal c, r) else none
  | [] => none

/-- Day field of the date format: 30-31, 10-29, or a zero-padded or bare
digit 1-9, mirroring the alternation order of the format regex. -/
def dayPart : List Char → Option (Nat × List Char)
  | '3' :: c :: r =>
    if c = '0' ∨ c = '1' then some (30 + digitVal c, r)
    else some (3, c :: r)
  | c1 :: c2 :: r =>
    if (c1 = '1' ∨ c1 = '2') ∧ c2.isDigit then some (digitVal c1 * 10 + digitVal c2, r)
    else if c1 = '0' ∧ c2.isDigit ∧ c2 ≠ '0' then some (digitVal c2, r)
    else if c1.isDigit ∧ c1 ≠ '0' then some (digitVal c1, c2 :: r)
    else none
  | c :: r => if c.isDigit ∧ c ≠ '0' then some (digitVal c, r) else none
  | [] => none

/-- Gregorian leap-year rule. -/
def isLeap (y : Nat) : Bool := y % 4 = 0 && (y % 100 ≠ 0 || y % 400 = 0)

/-- Number of days of a month. -/
def daysInMonth (y m : Nat) : Nat :=
  if m = 2 then (if isLeap y then 29 else 28)
  else if m = 4 ∨ m = 6 ∨ m = 9 ∨ m = 11 then 30
  else 31

/-- Parse a string with the strict date format `%Y-%m-%d`: four year
digits, dash, month, dash, day, nothing else, then validate that the
calendar date exists (year at least 1).  `none` models the value fault the
normalizer catches. -/
def parseDate (s : String) : Option PyDate :=
  match s.toList with
  | y1 :: y2 :: y3 :: y4 :: '-' :: rest =>
    if y1.isDigit ∧ y2.isDigit ∧ y3.isDigit ∧ y4.isDigit then
      let y := digitVal y1 * 1000 + digitVal y2 * 100 + digitVal y3 * 10 + digitVal y4
      match monthPart rest with
      | some (m, rest2) =>
        match rest2 with
        | '-' :: rest3 =>
          match dayPart rest3 with
          | some (d, rest4) =>
            match rest4 with
            | [] => if 1 ≤ y ∧ d ≤ daysInMonth y m then some ⟨y, m, d⟩ else none
            | _ => none
          | none => none
        | _ => none
      | none => none
    else none
  | _ => none

/-- One raw column entry as fetched from the board service: identifier,
display text, and opaque JSON payload, each possibly absent. -/
structure RawColumn where
  id : String
  text : Option String
  value : Option String
deriving DecidableEq, Repr

/-- One raw board item: identifier, display name, columns. -/
structure RawItem where
  id : String
  name : Option String
  column_values : List RawColumn
deriving DecidableEq, Repr

/-- The mutable per-record fields the column scan accumulates. -/
structure ColState where
  deal_value : Option ℚ
  probability : Option ℚ
  date : Option PyDate
deriving DecidableEq, Repr

/-- A normalized record as appended to the cleaned output list. -/
structure CleanedItem where
  id : String
  name : String
  deal_value : Option ℚ
  probability : Option ℚ
  date : Option PyDate
deriving DecidableEq, Repr

/-- The four data-quality counters. -/
structure Report where
  missing_deal_values : Nat
  missing_probability : Nat
  rows_excluded_invalid_dates : Nat
  rows_excluded_invalid_numeric : Nat
deriving DecidableEq, Repr

/-- Lines 115-121 of the normalizer: decode the payload, and when it is a
dictionary with an `amount` member, coerce that member to float.  A decode
failure or a value fault is caught (no assignment); coercing a null, list
or dictionary member raises an uncaught type fault. -/
def tryJsonDeal (value : String) : PyRes (Option ℚ) :=
  match jsonLoads value with
  | none => .ok none
  | some j =>
    match j with
    | .obj kvs =>
      match objGet kvs ("amount") with
      | none => .ok none
      | some av =>
        match av with
        | .num q => .ok (some q)
        | .str s => .ok (pyFloat s)
        | .bool b => .ok (some (if b then 1 else 0))
        | _ => .typeFault
    | _ => .ok none

/-- Lines 100-133 of the normalizer: process one column, updating the
per-record state.  A column whose trimmed text and payload are both empty
is skipped; otherwise the probability mapping, the deal-value parse
(payload first, text fallback only while the deal value is still null) and
the date parse are applied in order. -/
def scanColumn (st : ColState) (col : RawColumn) : PyRes ColState :=
  let text := pyStrip (col.text.getD (""))
  let value := col.value.getD ("")
  if text = "" ∧ value = "" then .ok st
  else
    let prob : Option ℚ :=
      if pyLower text = "high" then some ((0.8 : ℚ))
      else if pyLower text = "medium" then some ((0.5 : ℚ))
      else if pyLower text = "low" then some ((0.2 : ℚ))
      else st.probability
    match (if value = "" then PyRes.ok none else tryJsonDeal value) with
    | .typeFault => .typeFault
    | .ok jres =>
      let d1 : Option ℚ :=
        match jres with
        | some a => some a
        | none => st.deal_value
      let d2 : Option ℚ :=
        if d1 = none ∧ text ≠ "" then
          match pyFloat (stripCS text) with
          | some q => some q
          | none => d1
        else d1
      let dt : Option PyDate :=
        if text ≠ "" then
          match parseDate text with
          | some d => some d
          | none => st.date
        else st.date
      .ok ⟨d2, prob, dt⟩

/-- Scan the columns of a record in order. -/
def scanColumns : ColState → List RawColumn → PyRes ColState
  | st, [] => .ok st
  | st, c :: cs =>
    match scanColumn st c with
    | .typeFault => .typeFault
    | .ok st2 => scanColumns st2 cs

/-- State of a record after scanning all its columns, starting from the
all-null initialization of lines 91-97. -/
def scanItem (it : RawItem) : PyRes ColState :=
  scanColumns ⟨none, none, none⟩ it.column_values

/-- Line 93: the cleaned name (lowered then stripped; a missing or empty
raw name yields the empty string). -/
def pyName : Option String → String
  | none => ""
  | some s => if s = "" then "" else pyStrip (pyLower s)

/-- The record the normalizer appends to the cleaned output list. -/
def mkCleaned (it : RawItem) (st : ColState) : CleanedItem :=
  ⟨it.id, pyName it.name, st.deal_value, st.probability, st.date⟩

/-- Lines 140-146: for a retained record, count a null date and a null
probability. -/
def stepReport (rep : Report) (st : ColState) : Report :=
  let rep1 :=
    if st.date = none then
      { rep with rows_excluded_invalid_dates := rep.rows_excluded_invalid_dates + 1 }
    else rep
  if st.probability = none then
    { rep1 with missing_probability := rep1.missing_probability + 1 }
  else rep1

/-- The per-item loop of the normalizer (lines 90-148): scan, then either
drop the record (counting it as excluded for invalid numeric) or count its
missing date and probability and append it. -/
def cleanLoop : Report → List RawItem → PyRes (List CleanedItem × Report)
  | rep, [] => .ok ([], rep)
  | rep, it :: rest =>
    match scanItem it with
    | .typeFault => .typeFault
    | .ok st =>
      if st.deal_value = none then
        cleanLoop
          { rep with rows_excluded_invalid_numeric := rep.rows_excluded_invalid_numeric + 1 }
          rest
      else
        match cleanLoop (stepReport rep st) rest with
        | .typeFault => .typeFault
        | .ok (outs, repF) => .ok (mkCleaned it st :: outs, repF)

/-- The normalizer `clean_data` (lines 81-153): run the loop on a zeroed
report, then set `missing_deal_values` to the numeric-exclusion count. -/
def clean_data (raw_items : List RawItem) : PyRes (List CleanedItem × Report) :=
  match cleanLoop ⟨0, 0, 0, 0⟩ raw_items with
  | .typeFault => .typeFault
  | .ok (outs, rep) =>
    .ok (outs, { rep with missing_deal_values := rep.rows_excluded_invalid_numeric })

/-- A record as the calculator reads it: the five normalized fields plus
the four business fields it looks up by key with a default.  A `none`
business field models an absent key (the generic `get` then returns its
default). -/
structure CalcRecord where
  id : String
  name : String
  deal_value : Option ℚ
  probability : Option ℚ
  date : Option PyDate
  sector : Option String
  status : Option String
  billing_status : Option String
  collection_status : Option String
deriving DecidableEq, Repr

/-- View a normalizer output record through the calculator's key lookups:
the record carries exactly the keys id, name, deal_value, probability and
date, so every business-field lookup misses. -/
def toCalc (c : CleanedItem) : CalcRecord :=
  ⟨c.id, c.name, c.deal_value, c.probability, c.date, none, none, none, none⟩

/-- The intent dictionary as the calculator reads it: three presence flags
for the failure keys, and the four nullable content fields. -/
structure Intent where
  llm_error : Bool
  error : Bool
  clarification_needed : Bool
  board : Option String
  sector : Option String
  time_period : Option String
  analysis_type : Option String
deriving DecidableEq, Repr

/-- The aggregate structure under the `deals` result key. -/
structure DealsResult where
  total_pipeline_value : ℚ
  weighted_pipeline_value : ℚ
  stage_distribution : List (String × Nat)
  count_of_deals : Nat
deriving DecidableEq, Repr

/-- The aggregate structure under the `work_orders` result key. -/
structure WorkOrdersResult where
  completion_rate : ℚ
  billing_status_breakdown : List (String × Nat)
  collection_status_breakdown : List (String × Nat)
deriving DecidableEq, Repr

/-- The aggregate structure under the `comparison` result key. -/
structure ComparisonResult where
  closed_deals : Nat
  executed_work_orders : Nat
  potential_execution_lag : Int
deriving DecidableEq, Repr

/-- The calculator's result mapping: an optional error marker and the three
optional board sections (all `none` models the empty mapping). -/
structure CalcResults where
  error : Option String
  deals : Option DealsResult
  work_orders : Option WorkOrdersResult
  comparison : Option ComparisonResult
deriving DecidableEq, Repr

/-- Increment a key of a group-by counting dictionary (insertion order
preserved, as in the host dictionaries). -/
def bump : List (String × Nat) → String → List (String × Nat)
  | [], k => [(k, 1)]
  | (k2, n) :: rest, k =>
    if k2 = k then (k2, n + 1) :: rest else (k2, n) :: bump rest k

/-- Lines 216-221: the sector filter.  A null or empty sector is falsy in
the host conditional, so it applies no filtering; `time_period` is accepted
but never used. -/
def filter_data (data : List CalcRecord) (sector : Option String)
    (time_period : Option String) : List CalcRecord :=
  match sector with
  | some s => if s = "" then data else data.filter (fun it => it.sector == some s)
  | none => data

/-- The calculator `perform_calculation` (lines 204-267). -/
def perform_calculation (intent : Intent) (cleaned_deals cleaned_work_orders : List CalcRecord) :
    CalcResults :=
  if intent.llm_error || intent.error || intent.clarification_needed then
    ⟨some ("Intent extraction failed, cannot perform calculations."), none, none, none⟩
  else
    let board := intent.board
    let sector := intent.sector
    let time_period := intent.time_period
    let dres : Option DealsResult :=
      if board = some ("deals") ∨ board = some ("both") then
        let deals_data := filter_data cleaned_deals sector time_period
        let total_pipeline : ℚ := (deals_data.map (fun it => it.deal_value.getD 0)).sum
        let stage_dist :=
          deals_data.foldl (fun m it => bump m (it.status.getD ("Unknown"))) []
        some ⟨total_pipeline, total_pipeline, stage_dist, deals_data.length⟩
      else none
    let wres : Option WorkOrdersResult :=
      if board = some ("work_orders") ∨ board = some ("both") then
        let wo_data := filter_data cleaned_work_orders sector time_period
        let total_items := wo_data.length
        let completed := wo_data.countP (fun it => it.status == some ("Completed"))
        let completion_rate : ℚ :=
          if 0 < total_items then (completed : ℚ) / (total_items : ℚ) * 100 else 0
        let breakdowns :=
          wo_data.foldl
            (fun p it =>
              (bump p.1 (it.billing_status.getD ("Unknown")),
               bump p.2 (it.collection_status.getD ("Unknown"))))
            (([] : List (String × Nat)), ([] : List (String × Nat)))
        some ⟨completion_rate, breakdowns.1, breakdowns.2⟩
      else none
    let cres : Option ComparisonResult :=
      if board = some ("both") then
        let closed_deals := cleaned_deals.countP (fun it => it.status == some ("Closed"))
        let executed_wo := cleaned_work_orders.countP (fun it => it.status == some ("Completed"))
        some ⟨closed_deals, executed_wo,
          if executed_wo < closed_deals then (closed_deals : Int) - (executed_wo : Int) else 0⟩
      else none
    ⟨none, dres, wres, cres⟩

/-- A calculator record with only a deal value, as `toCalc` produces. -/
def bareRec (v : ℚ) : CalcRecord := ⟨("r"), ("n"), some v, none, none, none, none, none, none⟩

/-- The record the loop appends for a raw item, if any: none when the scan
faults or the deal value ends up null. -/
def keepItem (it : RawItem) : Option CleanedItem :=
  match scanItem it with
  | .typeFault => none
  | .ok st =>
    match st.deal_value with
    | none => none
    | some _ => some (mkCleaned it st)

/-- The item is scanned successfully and its deal value ends up null (the
exclusion condition of line 136). -/
def droppedB (it : RawItem) : Bool :=
  match scanItem it with
  | .typeFault => false
  | .ok st => st.deal_value.isNone

/-- The item is retained and its date ends up null (line 140). -/
def keptNoDateB (it : RawItem) : Bool :=
  match scanItem it with
  | .typeFault => false
  | .ok st => st.deal_value.isSome && st.date.isNone

/-- The item is retained and its probability ends up null (line 145). -/
def keptNoProbB (it : RawItem) : Bool :=
  match scanItem it with
  | .typeFault => false
  | .ok st => st.deal_value.isSome && st.probability.isNone

/-- The `deals` section of the calculator result, over an already filtered
collection. -/
def dealsSection (l : List CalcRecord) : DealsResult :=
  ⟨(l.map (fun it => it.deal_value.getD 0)).sum,
   (l.map (fun it => it.deal_value.getD 0)).sum,
   l.foldl (fun m it => bump m (it.status.getD ("Unknown"))) [],
   l.length⟩

/-- The `work_orders` section of the calculator result, over an already
filtered collection. -/
def woSection (l : List CalcRecord) : WorkOrdersResult :=
  ⟨(if 0 < l.length then
      (l.countP (fun it => it.status == some ("Completed")) : ℚ) / (l.length : ℚ) * 100
    else 0),
   (l.foldl
      (fun p it =>
        (bump p.1 (it.billing_status.getD ("Unknown")),
         bump p.2 (it.collection_status.getD ("Unknown"))))
      (([] : List (String × Nat)), ([] : List (String × Nat)))).1,
   (l.foldl
      (fun p it =>
        (bump p.1 (it.billing_status.getD ("Unknown")),
         bump p.2 (it.collection_status.getD ("Unknown"))))
      (([] : List (String × Nat)), ([] : List (String × Nat)))).2⟩

/-- The `comparison` section of the calculator result, over the unfiltered
collections. -/
def compSection (d w : List CalcRecord) : ComparisonResult :=
  ⟨d.countP (fun it => it.status == some ("Closed")),
   w.countP (fun it => it.status == some ("Completed")),
   if w.countP (fun it => it.status == some ("Completed"))
       < d.countP (fun it => it.status == some ("Closed")) then
     (d.countP (fun it => it.status == some ("Closed")) : Int)
       - (w.countP (fun it => it.status == some ("Completed")) : Int)
   else 0⟩

/-- Concrete batch for the C1 witness: one kept record, one record with no
parseable deal value. -/
def c1Items : List RawItem :=
  [⟨("1"), some ("A"), [⟨("c"), some ("7"), none⟩]⟩,
   ⟨("2"), none, [⟨("c"), some ("abc"), none⟩]⟩]

/-- Prefix column for the C2 witness: a text-parsed deal value of 5. -/
def c2PrefixCol : RawColumn := ⟨("c1"), some ("5"), none⟩

/-- Later column for the C2 witness: a payload-parsed amount of 1200.5. -/
def c2LaterCol : RawColumn := ⟨("c2"), some ("ignored"), some amountPayload⟩

/-- Concrete batch for the C4 witness: a single record with a numeric text
column and no date-like text anywhere. -/
def c4Items : List RawItem := [⟨("1"), some ("A"), [⟨("c"), some ("7"), none⟩]⟩]

/-- Intent used by the C5 witness. -/
def c5Intent : Intent := ⟨false, false, false, some ("both"), none, none, none⟩

/-- A record with status Closed, as the calculator reads one. -/
def closedRec : CalcRecord :=
  ⟨("r"), ("n"), some ((1 : ℚ)), none, none, none, some ("Closed"), none, none⟩

/-- Intent used by the C6 witness. -/
def c6Intent : Intent := ⟨false, false, true, some ("deals"), none, none, none⟩

/-- Intent used by the C7 witness. -/
def c7Intent : Intent := ⟨false, false, false, some ("work_orders"), none, none, none⟩

/-- Intent used by the C10 witness: a null board. -/
def c10Intent : Intent := ⟨false, false, false, none, some ("tech"), none, none⟩

/-- A deals record carrying a sector, as the calculator could read one from
an arbitrary collection. -/
def c9Rec : CalcRecord :=
  ⟨("r1"), ("n"), some ((1 : ℚ)), none, none, some ("tech"), none, none, none⟩

/-- Intent used by the C3 witness. -/
def c3wIntent : Intent := ⟨false, false, false, some ("both"), some ("tech"), none, none⟩

/-- Raw item for the C3 counterexample: one kept record. -/
def c3Item : RawItem := ⟨("i1"), some ("Deal A"), [⟨("c1"), some ("5"), none⟩]⟩

/-- Its normalized form. -/
def c3Clean : CleanedItem := ⟨("i1"), ("deal a"), some ((5 : ℚ)), none, none⟩

/-- Intent with the empty-string sector, a non-null value. -/
def c3Intent : Intent := ⟨false, false, false, some ("deals"), some (""), none, none⟩

example : pyFloat ("$") = none := by decide

example : pyFloat (stripCS ("$1,234.50")) = some ((1234.5 : ℚ)) := by decide

example : pyFloat ("1e3") = some ((1000 : ℚ)) := by decide

example : pyFloat ("1__0") = none := by decide

example : pyFloat ("1_0") = some ((10 : ℚ)) := by decide

example : pyFloat ("-2.5") = some ((-2.5 : ℚ)) := by decide

example : pyFloat ("") = none := by decide

example : pyFloat (".") = none := by decide

example : pyFloat ("1.") = some ((1 : ℚ)) := by decide

example : amountProbe amountPayload = some ((1200.5 : ℚ)) := by decide

example : (jsonLoads ("")).isNone = true := by decide

example : (jsonLoads ("[1, 2]")).isSome = true := by decide

example : (jsonLoads ("012")).isNone = true := by decide

example : (jsonLoads ("\"hi\"")).isSome = true := by decide

example : (jsonLoads ("true")).isSome = true := by decide

example : parseDate ("2024-02-29") = some ⟨2024, 2, 29⟩ := by decide

example : parseDate ("2023-02-29") = none := by decide

example : parseDate ("2024-1-5") = some ⟨2024, 1, 5⟩ := by decide

example : parseDate ("2024-13-01") = none := by decide

example : parseDate ("2024-12-31") = some ⟨2024, 12, 31⟩ := by decide

example : parseDate ("0000-01-01") = none := by decide

example : parseDate ("2024-01-01x") = none := by decide

example : parseDate ("24-01-01") = none := by decide

example : parseDate ("high") = none := by decide

example :
    clean_data [⟨("1"), some ("Deal A"), [⟨("c"), some ("$1,234.50"), none⟩]⟩] =
      .ok ([⟨("1"), ("deal a"), some ((1234.5 : ℚ)), none, none⟩], ⟨0, 1, 1, 0⟩) := by decide

example :
    clean_data [⟨("2"), none, [⟨("c"), some ("abc"), none⟩]⟩] =
      .ok ([], ⟨1, 0, 0, 1⟩) := by decide

example :
    scanItem ⟨("3"), none, [⟨("c"), some ("999"), some amountPayload⟩]⟩ =
      .ok ⟨some ((1200.5 : ℚ)), none, none⟩ := by decide

example :
    scanItem ⟨("4"), none,
        [⟨("c1"), some ("High"), none⟩, ⟨("c2"), some ("2024-03-01"), none⟩,
         ⟨("c3"), some ("7"), none⟩]⟩ =
      .ok ⟨some ((7 : ℚ)), some ((0.8 : ℚ)), some ⟨2024, 3, 1⟩⟩ := by decide

example :
    perform_calculation ⟨true, false, false, some ("deals"), none, none, none⟩ [] [] =
      ⟨some ("Intent extraction failed, cannot perform calculations."), none, none, none⟩ := by
  decide

example :
    perform_calculation ⟨false, false, false, some ("deals"), none, none, none⟩
        [bareRec 5, bareRec 7] [] =
      ⟨none, some ⟨12, 12, [(("Unknown"), 2)], 2⟩, none, none⟩ := by decide

example :
    perform_calculation ⟨false, false, false, some ("work_orders"), none, none, none⟩ [] [] =
      ⟨none, none, some ⟨0, [], []⟩, none⟩ := by decide

example :
    perform_calculation ⟨false, false, false, some ("bogus"), none, none, none⟩
        [bareRec 5] [bareRec 6] =
      ⟨none, none, none, none⟩ := by decide

theorem stepReport_numeric (rep : Report) (st : ColState) :
    (stepReport rep st).rows_excluded_invalid_numeric = rep.rows_excluded_invalid_numeric := by
  unfold stepReport
  by_cases hd : st.date = none <;> by_cases hp : st.probability = none <;> simp [hd, hp]

theorem stepReport_missing (rep : Report) (st : ColState) :
    (stepReport rep st).missing_deal_values = rep.missing_deal_values := by
  unfold stepReport
  by_cases hd : st.date = none <;> by_cases hp : st.probability = none <;> simp [hd, hp]

theorem stepReport_dates (rep : Report) (st : ColState) :
    (stepReport rep st).rows_excluded_invalid_dates
      = rep.rows_excluded_invalid_dates + (if st.date = none then 1 else 0) := by
  unfold stepReport
  by_cases hd : st.date = none <;> by_cases hp : st.probability = none <;> simp [hd, hp]

theorem stepReport_prob (rep : Report) (st : ColState) :
    (stepReport rep st).missing_probability
      = rep.missing_probability + (if st.probability = none then 1 else 0) := by
  unfold stepReport
  by_cases hd : st.date = none <;> by_cases hp : st.probability = none <;> simp [hd, hp]

theorem cleanLoop_spec (items : List RawItem) :
    ∀ (rep : Report) (outs : List CleanedItem) (rep2 : Report),
      cleanLoop rep items = .ok (outs, rep2) →
      outs = items.filterMap keepItem ∧
      rep2.rows_excluded_invalid_numeric
        = rep.rows_excluded_invalid_numeric + items.countP droppedB ∧
      rep2.rows_excluded_invalid_dates
        = rep.rows_excluded_invalid_dates + items.countP keptNoDateB ∧
      rep2.missing_probability = rep.missing_probability + items.countP keptNoProbB ∧
      rep2.missing_deal_values = rep.missing_deal_values := by
  induction items with
  | nil =>
    intro rep outs rep2 h
    simp only [cleanLoop, PyRes.ok.injEq, Prod.mk.injEq] at h
    obtain ⟨h1, h2⟩ := h
    subst h1; subst h2
    simp
  | cons it rest ih =>
    intro rep outs rep2 h
    simp only [cleanLoop] at h
    cases hscan : scanItem it with
    | typeFault => simp only [hscan] at h; cases h
    | ok st =>
      simp only [hscan] at h
      by_cases hdv : st.deal_value = none
      · rw [if_pos hdv] at h
        obtain ⟨h1, h2, h3, h4, h5⟩ := ih _ _ _ h
        refine ⟨?_, ?_, ?_, ?_, ?_⟩
        · rw [h1, List.filterMap_cons]
          simp [keepItem, hscan, hdv]
        · rw [h2, List.countP_cons]
          simp only [droppedB, hscan, hdv, Option.isNone_none]
          simp
          omega
        · rw [h3, List.countP_cons]
          simp [keptNoDateB, hscan, hdv]
        · rw [h4, List.countP_cons]
          simp [keptNoProbB, hscan, hdv]
        · exact h5
      · rw [if_neg hdv] at h
        cases hrec : cleanLoop (stepReport rep st) rest with
        | typeFault => simp only [hrec] at h; cases h
        | ok p =>
          simp only [hrec] at h
          obtain ⟨outs0, repF⟩ := p
          simp only [PyRes.ok.injEq, Prod.mk.injEq] at h
          obtain ⟨ho, hrep⟩ := h
          subst hrep
          obtain ⟨h1, h2, h3, h4, h5⟩ := ih _ _ _ hrec
          obtain ⟨v, hv⟩ := Option.ne_none_iff_exists'.mp hdv
          refine ⟨?_, ?_, ?_, ?_, ?_⟩
          · rw [← ho, h1, List.filterMap_cons]
            simp [keepItem, hscan, hv]
          · rw [h2, List.countP_cons, stepReport_numeric]
            simp [droppedB, hscan, hv]
          · rw [h3, List.countP_cons, stepReport_dates]
            simp only [keptNoDateB, hscan, hv, Option.isSome_some, Bool.true_and]
            cases hd : st.date <;> simp [hd] <;> omega
          · rw [h4, List.countP_cons, stepReport_prob]
            simp only [keptNoProbB, hscan, hv, Option.isSome_some, Bool.true_and]
            cases hp : st.probability <;> simp [hp] <;> omega
          · rw [h5, stepReport_missing]

theorem clean_data_spec (items : List RawItem) (outs : List CleanedItem) (rep : Report)
    (h : clean_data items = .ok (outs, rep)) :
    outs = items.filterMap keepItem ∧
    rep = ⟨items.countP droppedB, items.countP keptNoProbB,
           items.countP keptNoDateB, items.countP droppedB⟩ := by
  unfold clean_data at h
  cases hl : cleanLoop ⟨0, 0, 0, 0⟩ items with
  | typeFault => simp only [hl] at h; cases h
  | ok p =>
    obtain ⟨outs0, rep0⟩ := p
    simp only [hl, PyRes.ok.injEq, Prod.mk.injEq] at h
    obtain ⟨ho, hr⟩ := h
    obtain ⟨h1, h2, h3, h4, h5⟩ := cleanLoop_spec items _ _ _ hl
    subst ho; subst hr
    refine ⟨h1, ?_⟩
    cases rep0
    simp_all

theorem scanColumns_append (cs cs2 : List RawColumn) :
    ∀ st, scanColumns st (cs ++ cs2) =
      match scanColumns st cs with
      | .typeFault => .typeFault
      | .ok st2 => scanColumns st2 cs2 := by
  induction cs with
  | nil => intro st; simp [scanColumns]
  | cons c cs ih =>
    intro st
    simp only [List.cons_append, scanColumns]
    cases scanColumn st c <;> simp [ih]

theorem scanColumn_date (st : ColState) (c : RawColumn) (st2 : ColState)
    (h : scanColumn st c = .ok st2)
    (hnd : parseDate (pyStrip (c.text.getD (""))) = none) : st2.date = st.date := by
  unfold scanColumn at h
  by_cases hskip : pyStrip (c.text.getD ("")) = "" ∧ c.value.getD ("") = ""
  · rw [if_pos hskip] at h
    obtain rfl := PyRes.ok.inj h
    rfl
  · rw [if_neg hskip] at h
    cases hj : (if c.value.getD ("") = "" then PyRes.ok none else tryJsonDeal (c.value.getD (""))) with
    | typeFault => simp only [hj] at h; cases h
    | ok jres =>
      simp only [hj] at h
      obtain rfl := (PyRes.ok.inj h).symm
      simp only []
      by_cases ht : pyStrip (c.text.getD ("")) = ""
      · simp [ht]
      · simp [ht, hnd]

theorem scanColumns_date (cs : List RawColumn) :
    ∀ st st2, scanColumns st cs = .ok st2 →
      (∀ c ∈ cs, parseDate (pyStrip (c.text.getD (""))) = none) →
      st2.date = st.date := by
  induction cs with
  | nil =>
    intro st st2 h _
    simp only [scanColumns] at h
    obtain rfl := PyRes.ok.inj h
    rfl
  | cons c cs ih =>
    intro st st2 h hnd
    simp only [scanColumns] at h
    cases hc : scanColumn st c with
    | typeFault => simp only [hc] at h; cases h
    | ok stm =>
      simp only [hc] at h
      have h1 : stm.date = st.date :=
        scanColumn_date st c stm hc (hnd c (List.mem_cons_self c cs))
      have h2 : st2.date = stm.date :=
        ih stm st2 h (fun c2 hc2 => hnd c2 (List.mem_cons_of_mem c hc2))
      rw [h2, h1]

theorem perform_calculation_ok (intent : Intent) (d w : List CalcRecord)
    (h1 : intent.llm_error = false) (h2 : intent.error = false)
    (h3 : intent.clarification_needed = false) :
    perform_calculation intent d w =
      ⟨none,
       (if intent.board = some ("deals") ∨ intent.board = some ("both") then
          some (dealsSection (filter_data d intent.sector intent.time_period)) else none),
       (if intent.board = some ("work_orders") ∨ intent.board = some ("both") then
          some (woSection (filter_data w intent.sector intent.time_period)) else none),
       (if intent.board = some ("both") then some (compSection d w) else none)⟩ := by
  simp only [perform_calculation, h1, h2, h3, Bool.or_self, Bool.false_or, if_false,
    Bool.false_eq_true, dealsSection, woSection, compSection]

theorem filter_data_subset (l : List CalcRecord) (s : Option String) (tp : Option String) :
    ∀ r ∈ filter_data l s tp, r ∈ l := by
  intro r hr
  cases s with
  | none => exact hr
  | some v =>
    by_cases hv : v = ""
    · simp only [filter_data, hv, if_pos] at hr
      exact hr
    · simp only [filter_data, if_neg hv] at hr
      exact (List.mem_filter.1 hr).1

theorem filter_data_bare (l : List CalcRecord) (v : String) (tp : Option String)
    (hv : v ≠ "") (h : ∀ r ∈ l, r.sector = none) : filter_data l (some v) tp = [] := by
  simp only [filter_data, if_neg hv]
  apply List.filter_eq_nil_iff.2
  intro r hr
  rw [h r hr]
  simp

theorem countP_status_bare (l : List CalcRecord) (s0 : String)
    (h : ∀ r ∈ l, r.status = none) : l.countP (fun it => it.status == some s0) = 0 := by
  apply List.countP_eq_zero.2
  intro r hr
  rw [h r hr]
  simp

theorem stage_fold_bare (l : List CalcRecord) (h : ∀ r ∈ l, r.status = none) :
    ∀ n, l.foldl (fun m it => bump m (it.status.getD ("Unknown"))) [(("Unknown"), n)]
      = [(("Unknown"), n + l.length)] := by
  induction l with
  | nil => intro n; simp
  | cons r rest ih =>
    intro n
    simp only [List.foldl_cons]
    rw [h r (List.mem_cons_self r rest)]
    have hb : bump [(("Unknown"), n)] (((none : Option String)).getD ("Unknown"))
        = [(("Unknown"), n + 1)] := by simp [bump]
    rw [hb, ih (fun r2 hr2 => h r2 (List.mem_cons_of_mem r hr2)) (n + 1)]
    have : n + 1 + rest.length = n + (rest.length + 1) := by omega
    rw [this, List.length_cons]

theorem stage_fold_bare0 (l : List CalcRecord) (h : ∀ r ∈ l, r.status = none) :
    l.foldl (fun m it => bump m (it.status.getD ("Unknown"))) []
      = (if l.length = 0 then [] else [(("Unknown"), l.length)]) := by
  cases l with
  | nil => simp
  | cons r rest =>
    simp only [List.foldl_cons, List.length_cons]
    rw [h r (List.mem_cons_self r rest)]
    have hb : bump [] (((none : Option String)).getD ("Unknown")) = [(("Unknown"), 1)] := by
      simp [bump]
    rw [hb, stage_fold_bare rest (fun r2 hr2 => h r2 (List.mem_cons_of_mem r hr2)) 1]
    simp [Nat.add_comm]

theorem wo_fold_bare (l : List CalcRecord)
    (hb : ∀ r ∈ l, r.billing_status = none) (hc : ∀ r ∈ l, r.collection_status = none) :
    ∀ n m, l.foldl
        (fun p it =>
          (bump p.1 (it.billing_status.getD ("Unknown")),
           bump p.2 (it.collection_status.getD ("Unknown"))))
        ([(("Unknown"), n)], [(("Unknown"), m)])
      = ([(("Unknown"), n + l.length)], [(("Unknown"), m + l.length)]) := by
  induction l with
  | nil => intro n m; simp
  | cons r rest ih =>
    intro n m
    simp only [List.foldl_cons]
    rw [hb r (List.mem_cons_self r rest), hc r (List.mem_cons_self r rest)]
    have h1 : bump [(("Unknown"), n)] (((none : Option String)).getD ("Unknown"))
        = [(("Unknown"), n + 1)] := by simp [bump]
    have h2 : bump [(("Unknown"), m)] (((none : Option String)).getD ("Unknown"))
        = [(("Unknown"), m + 1)] := by simp [bump]
    rw [h1, h2,
      ih (fun r2 hr2 => hb r2 (List.mem_cons_of_mem r hr2))
        (fun r2 hr2 => hc r2 (List.mem_cons_of_mem r hr2)) (n + 1) (m + 1)]
    have e1 : n + 1 + rest.length = n + (rest.length + 1) := by omega
    have e2 : m + 1 + rest.length = m + (rest.length + 1) := by omega
    rw [e1, e2, List.length_cons]

theorem wo_fold_bare0 (l : List CalcRecord)
    (hb : ∀ r ∈ l, r.billing_status = none) (hc : ∀ r ∈ l, r.collection_status = none) :
    l.foldl
        (fun p it =>
          (bump p.1 (it.billing_status.getD ("Unknown")),
           bump p.2 (it.collection_status.getD ("Unknown"))))
        (([] : List (String × Nat)), ([] : List (String × Nat)))
      = (if l.length = 0 then (([] : List (String × Nat)), ([] : List (String × Nat)))
         else ([(("Unknown"), l.length)], [(("Unknown"), l.length)])) := by
  cases l with
  | nil => simp
  | cons r rest =>
    simp only [List.foldl_cons, List.length_cons]
    rw [hb r (List.mem_cons_self r rest), hc r (List.mem_cons_self r rest)]
    have h1 : bump [] (((none : Option String)).getD ("Unknown")) = [(("Unknown"), 1)] := by
      simp [bump]
    rw [h1,
      wo_fold_bare rest (fun r2 hr2 => hb r2 (List.mem_cons_of_mem r hr2))
        (fun r2 hr2 => hc r2 (List.mem_cons_of_mem r hr2)) 1 1]
    simp [Nat.add_comm]

theorem droppedB_not_kept (it : RawItem) (h : droppedB it = true) : keepItem it = none := by
  unfold droppedB at h
  unfold keepItem
  cases hscan : scanItem it with
  | typeFault => rfl
  | ok st =>
    rw [hscan] at h
    simp only [Option.isNone_iff_eq_none] at h
    simp [h]

/-- C1: for every input batch accepted by the normalizer, a record whose
deal value is still null after scanning all its columns is absent from the
output (the output is exactly the kept records, in order), each such record
adds exactly one to `rows_excluded_invalid_numeric`, the date and
probability counters count only retained records, and after the loop
`missing_deal_values` equals `rows_excluded_invalid_numeric`. -/
theorem c1_numeric_exclusion (items : List RawItem) (outs : List CleanedItem) (rep : Report)
    (h : clean_data items = .ok (outs, rep)) :
    outs = items.filterMap keepItem ∧
    (∀ it, droppedB it = true → keepItem it = none) ∧
    rep.rows_excluded_invalid_numeric = items.countP droppedB ∧
    rep.rows_excluded_invalid_dates = items.countP keptNoDateB ∧
    rep.missing_probability = items.countP keptNoProbB ∧
    rep.missing_deal_values = rep.rows_excluded_invalid_numeric := by
  obtain ⟨h1, h2⟩ := clean_data_spec items outs rep h
  subst h2
  exact ⟨h1, fun it hd => droppedB_not_kept it hd, rfl, rfl, rfl, rfl⟩

theorem c1_witness :
    ([⟨("1"), ("a"), some ((7 : ℚ)), none, none⟩] : List CleanedItem)
        = c1Items.filterMap keepItem ∧
    (∀ it, droppedB it = true → keepItem it = none) ∧
    (⟨1, 1, 1, 1⟩ : Report).rows_excluded_invalid_numeric = c1Items.countP droppedB ∧
    (⟨1, 1, 1, 1⟩ : Report).rows_excluded_invalid_dates = c1Items.countP keptNoDateB ∧
    (⟨1, 1, 1, 1⟩ : Report).missing_probability = c1Items.countP keptNoProbB ∧
    (⟨1, 1, 1, 1⟩ : Report).missing_deal_values
      = (⟨1, 1, 1, 1⟩ : Report).rows_excluded_invalid_numeric :=
  c1_numeric_exclusion c1Items [⟨("1"), ("a"), some ((7 : ℚ)), none, none⟩] ⟨1, 1, 1, 1⟩
    (by decide)

theorem scanColumn_json_overwrite (st : ColState) (c : RawColumn) (a : ℚ)
    (h : tryJsonDeal (c.value.getD ("")) = .ok (some a)) :
    ∃ st2, scanColumn st c = .ok st2 ∧ st2.deal_value = some a := by
  have hv : c.value.getD ("") ≠ "" := by
    intro he
    rw [he] at h
    have : tryJsonDeal ("") = .ok none := by decide
    rw [this] at h
    cases h
  unfold scanColumn
  rw [if_neg (by intro hand; exact hv hand.2), if_neg hv, h]
  refine ⟨_, rfl, ?_⟩
  simp

/-- C2: columns are scanned in order (scanning an appended list continues
from the state the prefix produced), and a successful payload parse in a
later column overwrites whatever deal value the earlier columns produced,
whatever parse it came from. -/
theorem c2_last_parse_wins (cs : List RawColumn) (c : RawColumn) (st1 : ColState) (a : ℚ)
    (h1 : scanColumns ⟨none, none, none⟩ cs = .ok st1)
    (h2 : tryJsonDeal (c.value.getD ("")) = .ok (some a)) :
    (∀ (st : ColState) (cs2 : List RawColumn),
      scanColumns st (cs ++ cs2) =
        match scanColumns st cs with
        | .typeFault => .typeFault
        | .ok stm => scanColumns stm cs2) ∧
    ∃ st2, scanColumns ⟨none, none, none⟩ (cs ++ [c]) = .ok st2 ∧ st2.deal_value = some a := by
  refine ⟨fun st cs2 => scanColumns_append cs cs2 st, ?_⟩
  obtain ⟨st2, hc, hd⟩ := scanColumn_json_overwrite st1 c a h2
  refine ⟨st2, ?_, hd⟩
  rw [scanColumns_append cs [c] ⟨none, none, none⟩, h1]
  simp [scanColumns, hc]

theorem c2_witness :
    (∀ (st : ColState) (cs2 : List RawColumn),
      scanColumns st ([c2PrefixCol] ++ cs2) =
        match scanColumns st [c2PrefixCol] with
        | .typeFault => .typeFault
        | .ok stm => scanColumns stm cs2) ∧
    ∃ st2, scanColumns ⟨none, none, none⟩ ([c2PrefixCol] ++ [c2LaterCol]) = .ok st2 ∧
      st2.deal_value = some ((1200.5 : ℚ)) :=
  c2_last_parse_wins [c2PrefixCol] c2LaterCol ⟨some ((5 : ℚ)), none, none⟩ (1200.5)
    (by decide) (by decide)

/-- C4: a retained record none of whose columns carries date-parseable text
keeps a null date, is still emitted, and is counted by
`rows_excluded_invalid_dates`. -/
theorem c4_dateless_still_kept (items : List RawItem) (outs : List CleanedItem) (rep : Report)
    (it : RawItem) (st : ColState)
    (hc : clean_data items = .ok (outs, rep))
    (hmem : it ∈ items)
    (hscan : scanItem it = .ok st)
    (hdeal : st.deal_value.isSome = true)
    (hnodate : ∀ c ∈ it.column_values, parseDate (pyStrip (c.text.getD (""))) = none) :
    (mkCleaned it st).date = none ∧
    mkCleaned it st ∈ outs ∧
    keptNoDateB it = true ∧
    rep.rows_excluded_invalid_dates = items.countP keptNoDateB ∧
    1 ≤ rep.rows_excluded_invalid_dates := by
  have hdate : st.date = none := scanColumns_date it.column_values ⟨none, none, none⟩ st hscan hnodate
  obtain ⟨h1, h2⟩ := clean_data_spec items outs rep hc
  obtain ⟨v, hv⟩ := Option.isSome_iff_exists.mp hdeal
  have hkeep : keepItem it = some (mkCleaned it st) := by
    simp [keepItem, hscan, hv]
  have hkept : keptNoDateB it = true := by
    simp [keptNoDateB, hscan, hv, hdate]
  refine ⟨hdate, ?_, hkept, ?_, ?_⟩
  · rw [h1]
    exact List.mem_filterMap.2 ⟨it, hmem, hkeep⟩
  · rw [h2]
  · rw [h2]
    simp only []
    have : 0 < items.countP keptNoDateB :=
      List.countP_pos_iff.2 ⟨it, hmem, hkept⟩
    omega

theorem c4_witness :
    (mkCleaned ⟨("1"), some ("A"), [⟨("c"), some ("7"), none⟩]⟩
        ⟨some ((7 : ℚ)), none, none⟩).date = none ∧
    mkCleaned ⟨("1"), some ("A"), [⟨("c"), some ("7"), none⟩]⟩
        ⟨some ((7 : ℚ)), none, none⟩ ∈ [⟨("1"), ("a"), some ((7 : ℚ)), none, none⟩] ∧
    keptNoDateB ⟨("1"), some ("A"), [⟨("c"), some ("7"), none⟩]⟩ = true ∧
    (⟨0, 1, 1, 0⟩ : Report).rows_excluded_invalid_dates = c4Items.countP keptNoDateB ∧
    1 ≤ (⟨0, 1, 1, 0⟩ : Report).rows_excluded_invalid_dates :=
  c4_dateless_still_kept c4Items [⟨("1"), ("a"), some ((7 : ℚ)), none, none⟩] ⟨0, 1, 1, 0⟩
    ⟨("1"), some ("A"), [⟨("c"), some ("7"), none⟩]⟩ ⟨some ((7 : ℚ)), none, none⟩
    (by decide) (by decide) (by decide) (by decide) (by decide)

/-- C5: with board `both`, the comparison section is computed over the
unfiltered full collections, its lag is the positive part of
closed minus executed, and it is never negative. -/
theorem c5_comparison_unfiltered (intent : Intent) (d w : List CalcRecord)
    (h1 : intent.llm_error = false) (h2 : intent.error = false)
    (h3 : intent.clarification_needed = false)
    (hb : intent.board = some ("both")) :
    (perform_calculation intent d w).comparison =
      some ⟨d.countP (fun it => it.status == some ("Closed")),
            w.countP (fun it => it.status == some ("Completed")),
            (if w.countP (fun it => it.status == some ("Completed"))
                < d.countP (fun it => it.status == some ("Closed")) then
              ((d.countP (fun it => it.status == some ("Closed")) : Int)
                - (w.countP (fun it => it.status == some ("Completed")) : Int))
            else 0)⟩ ∧
    (∀ cr, (perform_calculation intent d w).comparison = some cr →
      0 ≤ cr.potential_execution_lag) := by
  rw [perform_calculation_ok intent d w h1 h2 h3]
  rw [hb]
  constructor
  · simp [compSection]
  · intro cr hcr
    simp at hcr
    subst hcr
    unfold compSection
    simp only []
    split
    · omega
    · omega

theorem c5_witness :
    (perform_calculation c5Intent [closedRec] []).comparison =
      some ⟨[closedRec].countP (fun it => it.status == some ("Closed")),
            ([] : List CalcRecord).countP (fun it => it.status == some ("Completed")),
            (if ([] : List CalcRecord).countP (fun it => it.status == some ("Completed"))
                < [closedRec].countP (fun it => it.status == some ("Closed")) then
              (([closedRec].countP (fun it => it.status == some ("Closed")) : Int)
                - (([] : List CalcRecord).countP (fun it => it.status == some ("Completed")) : Int))
            else 0)⟩ ∧
    (∀ cr, (perform_calculation c5Intent [closedRec] []).comparison = some cr →
      0 ≤ cr.potential_execution_lag) :=
  c5_comparison_unfiltered c5Intent [closedRec] [] rfl rfl rfl rfl

/-- C6: a failure-shaped intent makes the calculator return the error
marker immediately, independently of both record collections. -/
theorem c6_intent_failure (intent : Intent) (d w d2 w2 : List CalcRecord)
    (h : intent.llm_error = true ∨ intent.error = true ∨ intent.clarification_needed = true) :
    perform_calculation intent d w =
      ⟨some ("Intent extraction failed, cannot perform calculations."), none, none, none⟩ ∧
    perform_calculation intent d w = perform_calculation intent d2 w2 := by
  have hcond : (intent.llm_error || intent.error || intent.clarification_needed) = true := by
    rcases h with h | h | h <;> simp [h]
  constructor
  · simp [perform_calculation, hcond]
  · simp [perform_calculation, hcond]

theorem c6_witness :
    perform_calculation c6Intent [] [] =
      ⟨some ("Intent extraction failed, cannot perform calculations."), none, none, none⟩ ∧
    perform_calculation c6Intent [] [] = perform_calculation c6Intent [closedRec] [closedRec] :=
  c6_intent_failure c6Intent [] [] [closedRec] [closedRec] (Or.inr (Or.inr rfl))

/-- C7: with board `work_orders` or `both`, the completion rate is 100
times the completed count of the filtered work orders divided by the
filtered count, and 0 on an empty filtered collection (total function, no
division fault). -/
theorem c7_completion_rate (intent : Intent) (d w : List CalcRecord)
    (h1 : intent.llm_error = false) (h2 : intent.error = false)
    (h3 : intent.clarification_needed = false)
    (hb : intent.board = some ("work_orders") ∨ intent.board = some ("both")) :
    ∃ wr, (perform_calculation intent d w).work_orders = some wr ∧
      wr.completion_rate =
        (if 0 < (filter_data w intent.sector intent.time_period).length then
          100 * ((filter_data w intent.sector intent.time_period).countP
              (fun it => it.status == some ("Completed")) : ℚ)
            / ((filter_data w intent.sector intent.time_period).length : ℚ)
        else 0) ∧
      (filter_data w intent.sector intent.time_period = [] → wr.completion_rate = 0) := by
  rw [perform_calculation_ok intent d w h1 h2 h3]
  rw [if_pos hb]
  refine ⟨_, rfl, ?_, ?_⟩
  · unfold woSection
    simp only []
    split
    · rw [div_mul_eq_mul_div, mul_comm]
    · rfl
  · intro he
    unfold woSection
    rw [he]
    simp

theorem c7_witness :
    ∃ wr, (perform_calculation c7Intent [] []).work_orders = some wr ∧
      wr.completion_rate =
        (if 0 < (filter_data [] c7Intent.sector c7Intent.time_period).length then
          100 * ((filter_data [] c7Intent.sector c7Intent.time_period).countP
              (fun it => it.status == some ("Completed")) : ℚ)
            / ((filter_data [] c7Intent.sector c7Intent.time_period).length : ℚ)
        else 0) ∧
      (filter_data [] c7Intent.sector c7Intent.time_period = [] → wr.completion_rate = 0) :=
  c7_completion_rate c7Intent [] [] rfl rfl rfl (Or.inl rfl)

/-- C10: with an actionable intent whose board is none of the three known
values (null included), the calculator returns the empty result mapping
with no error marker. -/
theorem c10_unknown_board (intent : Intent) (d w : List CalcRecord)
    (h1 : intent.llm_error = false) (h2 : intent.error = false)
    (h3 : intent.clarification_needed = false)
    (hb1 : intent.board ≠ some ("deals")) (hb2 : intent.board ≠ some ("work_orders"))
    (hb3 : intent.board ≠ some ("both")) :
    perform_calculation intent d w = ⟨none, none, none, none⟩ := by
  rw [perform_calculation_ok intent d w h1 h2 h3]
  rw [if_neg (by rintro (h | h) <;> [exact hb1 h; exact hb3 h]),
    if_neg (by rintro (h | h) <;> [exact hb2 h; exact hb3 h]), if_neg hb3]

theorem c10_witness :
    perform_calculation c10Intent [closedRec] [closedRec] = ⟨none, none, none, none⟩ :=
  c10_unknown_board c10Intent [closedRec] [closedRec] rfl rfl rfl
    (by decide) (by decide) (by decide)

/-- C8: for each column the payload is decoded first and a numeric amount
wins over any text-derived number of the same column; the text fallback
runs exactly when the payload attempt yields nothing and the deal value is
still null, parsing the text as a decimal after the separator and currency
stripping; a payload amount of 1200.5 and a text of `$1,234.50` produce the
two documented values. -/
theorem c8_payload_first_text_fallback :
    (∀ (st : ColState) (col : RawColumn) (a : ℚ),
      tryJsonDeal (col.value.getD ("")) = .ok (some a) →
      ∃ st2, scanColumn st col = .ok st2 ∧ st2.deal_value = some a) ∧
    (∀ (st : ColState) (col : RawColumn),
      tryJsonDeal (col.value.getD ("")) = .ok none →
      st.deal_value = none →
      pyStrip (col.text.getD ("")) ≠ "" →
      ∃ st2, scanColumn st col = .ok st2 ∧
        st2.deal_value = pyFloat (stripCS (pyStrip (col.text.getD (""))))) ∧
    (∀ (st : ColState) (col : RawColumn) (v : ℚ),
      tryJsonDeal (col.value.getD ("")) = .ok none →
      st.deal_value = some v →
      ∃ st2, scanColumn st col = .ok st2 ∧ st2.deal_value = some v) ∧
    scanItem ⟨("r"), none, [⟨("c"), some ("999"), some amountPayload⟩]⟩ =
      .ok ⟨some ((1200.5 : ℚ)), none, none⟩ ∧
    scanItem ⟨("r"), none, [⟨("c"), some ("$1,234.50"), none⟩]⟩ =
      .ok ⟨some ((1234.5 : ℚ)), none, none⟩ := by
  refine ⟨fun st col a h => scanColumn_json_overwrite st col a h, ?_, ?_, by decide, by decide⟩
  · intro st col h hdeal htext
    unfold scanColumn
    rw [if_neg (fun hand => htext hand.1)]
    have hj : (if col.value.getD ("") = "" then PyRes.ok none
        else tryJsonDeal (col.value.getD (""))) = PyRes.ok (none : Option ℚ) := by
      split
      · rfl
      · exact h
    rw [hj]
    refine ⟨_, rfl, ?_⟩
    rw [hdeal]
    rw [if_pos ⟨rfl, htext⟩]
    cases hp : pyFloat (stripCS (pyStrip (col.text.getD ("")))) <;> simp [hp, hdeal]
  · intro st col v h hdeal
    unfold scanColumn
    by_cases hskip : pyStrip (col.text.getD ("")) = "" ∧ col.value.getD ("") = ""
    · rw [if_pos hskip]
      exact ⟨st, rfl, hdeal⟩
    · rw [if_neg hskip]
      have hj : (if col.value.getD ("") = "" then PyRes.ok none
          else tryJsonDeal (col.value.getD (""))) = PyRes.ok (none : Option ℚ) := by
        split
        · rfl
        · exact h
      rw [hj]
      refine ⟨_, rfl, ?_⟩
      simp [hdeal]

theorem c8_witness :
    ∃ st2, scanColumn ⟨some ((999 : ℚ)), none, none⟩
        ⟨("c"), some ("999"), some amountPayload⟩ = .ok st2 ∧
      st2.deal_value = some ((1200.5 : ℚ)) :=
  c8_payload_first_text_fallback.1 ⟨some ((999 : ℚ)), none, none⟩
    ⟨("c"), some ("999"), some amountPayload⟩ (1200.5) (by decide)

/-- C9 counterexample: with the empty-string sector — a non-null value that
differs from the record's sector — the record still passes the filter, so
the claimed pass-iff-null-or-equal condition fails. -/
theorem c9_counterexample :
    filter_data [c9Rec] (some ("")) none = [c9Rec] ∧
    ((some ("") : Option String) ≠ (none : Option String)) ∧
    c9Rec.sector ≠ some ("") := by decide

/-- C9 amended: a record passes the filter exactly when the intent sector
is null or empty or equals the record's sector; the time period never
affects the outcome. -/
theorem c9_filter_semantics (data : List CalcRecord) (s : Option String)
    (tp tp2 : Option String) (r : CalcRecord) :
    (r ∈ filter_data data s tp ↔
      r ∈ data ∧ (s = none ∨ s = some ("") ∨ (∃ v, s = some v ∧ r.sector = some v))) ∧
    filter_data data s tp = filter_data data s tp2 := by
  constructor
  · cases s with
    | none => simp [filter_data]
    | some v =>
      by_cases hv : v = ""
      · subst hv
        simp [filter_data]
      · simp only [filter_data, if_neg hv, List.mem_filter, beq_iff_eq]
        constructor
        · rintro ⟨hmem, hsec⟩
          exact ⟨hmem, Or.inr (Or.inr ⟨v, rfl, hsec⟩)⟩
        · rintro ⟨hmem, h | h | ⟨v2, hv2, hsec⟩⟩
          · exact absurd h (by simp)
          · exact absurd (Option.some.inj h) hv
          · obtain rfl := Option.some.inj hv2
            exact ⟨hmem, hsec⟩
  · cases s with
    | none => rfl
    | some v => rfl

/-- C3 counterexample: on a normalized output of one record, the non-null
empty-string sector leaves the filtered set equal to the whole collection —
not empty — so the count of deals is 1. -/
theorem c3_counterexample :
    clean_data [c3Item] = .ok ([c3Clean], ⟨0, 1, 1, 0⟩) ∧
    c3Intent.sector = some ("") ∧
    ((some ("") : Option String) ≠ (none : Option String)) ∧
    filter_data ([c3Clean].map toCalc) c3Intent.sector c3Intent.time_period
      = [c3Clean].map toCalc ∧
    ([c3Clean].map toCalc ≠ ([] : List CalcRecord)) ∧
    (perform_calculation c3Intent ([c3Clean].map toCalc) ([] : List CalcRecord)).deals =
      some ⟨5, 5, [(("Unknown"), 1)], 1⟩ := by decide

/-- C3 amended: records emitted by the normalizer carry none of the
business fields, so on the normalizer's output every group-by lookup lands
in the Unknown bucket, every status comparison counts zero records, and a
non-null, non-empty sector yields an empty filtered set. -/
theorem c3_normalized_records_bare (rawD rawW : List RawItem)
    (outsD outsW : List CleanedItem) (repD repW : Report) (intent : Intent)
    (hD : clean_data rawD = .ok (outsD, repD))
    (hW : clean_data rawW = .ok (outsW, repW))
    (h1 : intent.llm_error = false) (h2 : intent.error = false)
    (h3 : intent.clarification_needed = false) :
    (∀ r ∈ outsD.map toCalc, r.sector = none ∧ r.status = none ∧
       r.billing_status = none ∧ r.collection_status = none) ∧
    (∀ r ∈ outsW.map toCalc, r.sector = none ∧ r.status = none ∧
       r.billing_status = none ∧ r.collection_status = none) ∧
    (intent.board = some ("deals") ∨ intent.board = some ("both") →
      ∃ dr, (perform_calculation intent (outsD.map toCalc) (outsW.map toCalc)).deals
          = some dr ∧
        dr.count_of_deals
          = (filter_data (outsD.map toCalc) intent.sector intent.time_period).length ∧
        dr.stage_distribution =
          (if (filter_data (outsD.map toCalc) intent.sector intent.time_period).length = 0
           then []
           else [(("Unknown"),
             (filter_data (outsD.map toCalc) intent.sector intent.time_period).length)])) ∧
    (intent.board = some ("work_orders") ∨ intent.board = some ("both") →
      ∃ wr, (perform_calculation intent (outsD.map toCalc) (outsW.map toCalc)).work_orders
          = some wr ∧
        wr.completion_rate = 0 ∧
        wr.billing_status_breakdown =
          (if (filter_data (outsW.map toCalc) intent.sector intent.time_period).length = 0
           then []
           else [(("Unknown"),
             (filter_data (outsW.map toCalc) intent.sector intent.time_period).length)]) ∧
        wr.collection_status_breakdown =
          (if (filter_data (outsW.map toCalc) intent.sector intent.time_period).length = 0
           then []
           else [(("Unknown"),
             (filter_data (outsW.map toCalc) intent.sector intent.time_period).length)])) ∧
    (intent.board = some ("both") →
      (perform_calculation intent (outsD.map toCalc) (outsW.map toCalc)).comparison
        = some ⟨0, 0, 0⟩) ∧
    (∀ v, intent.sector = some v → v ≠ "" →
      filter_data (outsD.map toCalc) (some v) intent.time_period = [] ∧
      filter_data (outsW.map toCalc) (some v) intent.time_period = []) := by
  have bareD : ∀ r ∈ outsD.map toCalc, r.sector = none ∧ r.status = none ∧
      r.billing_status = none ∧ r.collection_status = none := by
    intro r hr
    obtain ⟨c0, _, rfl⟩ := List.mem_map.1 hr
    exact ⟨rfl, rfl, rfl, rfl⟩
  have bareW : ∀ r ∈ outsW.map toCalc, r.sector = none ∧ r.status = none ∧
      r.billing_status = none ∧ r.collection_status = none := by
    intro r hr
    obtain ⟨c0, _, rfl⟩ := List.mem_map.1 hr
    exact ⟨rfl, rfl, rfl, rfl⟩
  have hstD : ∀ r ∈ filter_data (outsD.map toCalc) intent.sector intent.time_period,
      r.status = none :=
    fun r hr => (bareD r (filter_data_subset _ _ _ r hr)).2.1
  have hstW : ∀ r ∈ filter_data (outsW.map toCalc) intent.sector intent.time_period,
      r.status = none :=
    fun r hr => (bareW r (filter_data_subset _ _ _ r hr)).2.1
  have hbillW : ∀ r ∈ filter_data (outsW.map toCalc) intent.sector intent.time_period,
      r.billing_status = none :=
    fun r hr => (bareW r (filter_data_subset _ _ _ r hr)).2.2.1
  have hcollW : ∀ r ∈ filter_data (outsW.map toCalc) intent.sector intent.time_period,
      r.collection_status = none :=
    fun r hr => (bareW r (filter_data_subset _ _ _ r hr)).2.2.2
  refine ⟨bareD, bareW, ?_, ?_, ?_, ?_⟩
  · intro hb
    rw [perform_calculation_ok intent _ _ h1 h2 h3]
    refine ⟨dealsSection (filter_data (outsD.map toCalc) intent.sector intent.time_period),
      ?_, rfl, ?_⟩
    · rw [if_pos hb]
    · unfold dealsSection
      simp only []
      rw [stage_fold_bare0 _ hstD]
  · intro hb
    rw [perform_calculation_ok intent _ _ h1 h2 h3]
    refine ⟨woSection (filter_data (outsW.map toCalc) intent.sector intent.time_period),
      ?_, ?_, ?_, ?_⟩
    · rw [if_pos hb]
    · unfold woSection
      simp only []
      rw [countP_status_bare _ _ hstW]
      simp
    · unfold woSection
      simp only []
      rw [wo_fold_bare0 _ hbillW hcollW]
      split
      · rfl
      · rfl
    · unfold woSection
      simp only []
      rw [wo_fold_bare0 _ hbillW hcollW]
      split
      · rfl
      · rfl
  · intro hb
    rw [perform_calculation_ok intent _ _ h1 h2 h3]
    rw [if_pos hb]
    show some (compSection (outsD.map toCalc) (outsW.map toCalc)) = some ⟨0, 0, 0⟩
    unfold compSection
    rw [countP_status_bare _ _ (fun r hr => (bareD r hr).2.1),
      countP_status_bare _ _ (fun r hr => (bareW r hr).2.1)]
    simp
  · intro v hsv hv
    exact ⟨filter_data_bare _ v _ hv (fun r hr => (bareD r hr).1),
      filter_data_bare _ v _ hv (fun r hr => (bareW r hr).1)⟩

theorem c3_witness :
    (∀ r ∈ ([c3Clean] : List CleanedItem).map toCalc, r.sector = none ∧ r.status = none ∧
       r.billing_status = none ∧ r.collection_status = none) ∧
    (∀ r ∈ ([] : List CleanedItem).map toCalc, r.sector = none ∧ r.status = none ∧
       r.billing_status = none ∧ r.collection_status = none) ∧
    (c3wIntent.board = some ("deals") ∨ c3wIntent.board = some ("both") →
      ∃ dr, (perform_calculation c3wIntent (([c3Clean] : List CleanedItem).map toCalc)
            (([] : List CleanedItem).map toCalc)).deals = some dr ∧
        dr.count_of_deals
          = (filter_data (([c3Clean] : List CleanedItem).map toCalc) c3wIntent.sector
              c3wIntent.time_period).length ∧
        dr.stage_distribution =
          (if (filter_data (([c3Clean] : List CleanedItem).map toCalc) c3wIntent.sector
                c3wIntent.time_period).length = 0
           then []
           else [(("Unknown"),
             (filter_data (([c3Clean] : List CleanedItem).map toCalc) c3wIntent.sector
               c3wIntent.time_period).length)])) ∧
    (c3wIntent.board = some ("work_orders") ∨ c3wIntent.board = some ("both") →
      ∃ wr, (perform_calculation c3wIntent (([c3Clean] : List CleanedItem).map toCalc)
            (([] : List CleanedItem).map toCalc)).work_orders = some wr ∧
        wr.completion_rate = 0 ∧
        wr.billing_status_breakdown =
          (if (filter_data (([] : List CleanedItem).map toCalc) c3wIntent.sector
                c3wIntent.time_period).length = 0
           then []
           else [(("Unknown"),
             (filter_data (([] : List CleanedItem).map toCalc) c3wIntent.sector
               c3wIntent.time_period).length)]) ∧
        wr.collection_status_breakdown =
          (if (filter_data (([] : List CleanedItem).map toCalc) c3wIntent.sector
                c3wIntent.time_period).length = 0
           then []
           else [(("Unknown"),
             (filter_data (([] : List CleanedItem).map toCalc) c3wIntent.sector
               c3wIntent.time_period).length)])) ∧
    (c3wIntent.board = some ("both") →
      (perform_calculation c3wIntent (([c3Clean] : List CleanedItem).map toCalc)
          (([] : List CleanedItem).map toCalc)).comparison = some ⟨0, 0, 0⟩) ∧
    (∀ v, c3wIntent.sector = some v → v ≠ "" →
      filter_data (([c3Clean] : List CleanedItem).map toCalc) (some v)
        c3wIntent.time_period = [] ∧
      filter_data (([] : List CleanedItem).map toCalc) (some v)
        c3wIntent.time_period = []) :=
  c3_normalized_records_bare [c3Item] [] [c3Clean] [] ⟨0, 1, 1, 0⟩ ⟨0, 0, 0, 0⟩ c3wIntent
    (by decide) (by decide) rfl rfl rfl
